import Mathlib

/-! go_nagios: status aggregation, rendering and exit.

A shallow embedding of `go_nagios.go` (package `nagios`).

Modelling conventions.

* `NagiosStatusVal` is a Go `int`; it is embedded as `Int`. No arithmetic is done on it, only
  comparison, slice indexing and `%d` printing, so no overflow can occur.
* Go strings are embedded as Lean strings. The program only compares with `""`, concatenates
  and formats with `%s`, which act the same on both.
* Standard output is an explicit list of writes: every `fmt.Printf` / `fmt.Fprintln` call
  appends one entry holding the bytes written by that call.
* A call ends in one of three ways: it returns, it panics (slice index out of range, nil
  dereference), or the process exits through `os.Exit`.
* Pointers: a `*NagiosStatus` receiver or slice element is embedded as the value it points
  to. The children handed to `Aggregate` are taken to be non-nil and distinct from the
  receiver. `AggregateAt` is the same method with the pointers kept, as indices into a store;
  `AggregateAt_eq_Aggregate` shows that the two agree under that assumption.
-/

namespace Nagios

/-- Go: `type NagiosStatusVal int`. -/
abbrev NagiosStatusVal := Int

/-- Go: `NAGIOS_OK NagiosStatusVal = iota`. -/
def NAGIOS_OK : NagiosStatusVal := 0
/-- Go: second constant of the `iota` block. -/
def NAGIOS_WARNING : NagiosStatusVal := 1
/-- Go: third constant of the `iota` block. -/
def NAGIOS_CRITICAL : NagiosStatusVal := 2
/-- Go: fourth constant of the `iota` block. -/
def NAGIOS_UNKNOWN : NagiosStatusVal := 3

/-- Go: `valMessages = []string{"OK:", "WARNING:", "CRITICAL:", "UNKNOWN:"}`. -/
def valMessages : List String :=
  ["OK:", "WARNING:", "CRITICAL:", "UNKNOWN:"]

/-- Go: the index expression `valMessages[v]`. A negative index or one that is not below the
length of the slice panics; that is `none` here. -/
def valMessagesAt (v : NagiosStatusVal) : Option String :=
  if 0 ≤ v then valMessages.get? v.toNat else none

/-- Go: `type NagiosPerformanceVal struct`. -/
structure NagiosPerformanceVal where
  Label : String
  Value : String
  Uom : String
  WarnThreshold : String
  CritThreshold : String
  MinValue : String
  MaxValue : String
deriving DecidableEq

/-- Go: `NagiosPerformanceVal{}`, every field the empty string. -/
def NagiosPerformanceVal.zero : NagiosPerformanceVal :=
  { Label := "", Value := "", Uom := "", WarnThreshold := "", CritThreshold := "",
    MinValue := "", MaxValue := "" }

/-- Go: `type NagiosStatus struct`. -/
structure NagiosStatus where
  Message : String
  Value : NagiosStatusVal
  Perfdata : NagiosPerformanceVal
deriving DecidableEq

/-- Go: `type NagiosStatusWithPerformanceData struct { *NagiosStatus; Perfdata ... }`. The
embedded pointer is taken non-nil; `Message` and `Value` are promoted from it, `Perfdata` is
the outer field, which shadows the embedded one. -/
structure NagiosStatusWithPerformanceData where
  NagiosStatus : NagiosStatus
  Perfdata : NagiosPerformanceVal
deriving DecidableEq

/-- How a call ends. -/
inductive Outcome where
  /-- the call returned to its caller -/
  | returned
  /-- a run-time panic stopped the call -/
  | panicked
  /-- `os.Exit(code)` ended the process -/
  | exited (code : Int)
deriving DecidableEq

/-- What can be observed after a call on a `*NagiosStatus` receiver: the receiver, everything
written to standard output so far (one entry per write call), and how the call ended. -/
structure CallResult where
  status : NagiosStatus
  stdout : List String
  outcome : Outcome
deriving DecidableEq

/-- Go: `fmt.Sprintf("'%s'=%s%s;%s;%s;%s;%s", p.Label, p.Value, p.Uom, p.WarnThreshold,
p.CritThreshold, p.MinValue, p.MaxValue)`, the format named `perfFormat` in `Aggregate`. -/
def perfFormat (p : NagiosPerformanceVal) : String :=
  "'" ++ p.Label ++ "'=" ++ p.Value ++ p.Uom ++ ";" ++ p.WarnThreshold ++ ";" ++
    p.CritThreshold ++ ";" ++ p.MinValue ++ ";" ++ p.MaxValue

/-- Go: `fmt.Sprintf("%s %s", a, b)`, the format named `msgFormat` in `Aggregate`. -/
def msgFormat (a b : String) : String :=
  a ++ " " ++ b

/-- Go: `strings.Join(elems, sep)`. -/
def stringsJoin (elems : List String) (sep : String) : String :=
  sep.intercalate elems

/-- The bytes written by the `fmt.Printf` at the head of the loop body of `Aggregate`. -/
def aggregatePrintf (s : NagiosStatus) : String :=
  "Status: " ++ toString s.Value ++ " Message: " ++ s.Message ++ " PerfData: " ++
    perfFormat s.Perfdata ++ "\n"

/-- The receiver, standard output and the local variables of `Aggregate` during its loop. -/
structure AggregateFrame where
  status : NagiosStatus
  stdout : List String
  perfDataStringArr : List String
  longMessageArr : List String
  msg : String
deriving DecidableEq

/-- One pass through the body of `for _, s := range otherStatuses` in `Aggregate`.
`Except.error` carries the frame at the moment `valMessages[s.Value]` panicked. -/
def aggregateBody (fr : AggregateFrame) (s : NagiosStatus) :
    Except AggregateFrame AggregateFrame :=
  -- fmt.Printf("Status: %d Message: %s PerfData: ...\n", ...)
  let fr := { fr with stdout := fr.stdout ++ [aggregatePrintf s] }
  -- if status.Value < s.Value { status.Value = s.Value }
  let fr :=
    if fr.status.Value < s.Value then
      { fr with status := { fr.status with Value := s.Value } }
    else fr
  if fr.status.Message = "" then
    match valMessagesAt s.Value with
    | none => .error fr
    | some label =>
      .ok { fr with msg := msgFormat label s.Message ++ " | " ++ perfFormat s.Perfdata }
  else
    match valMessagesAt s.Value with
    | none => .error fr
    | some label =>
      .ok { fr with
            longMessageArr := fr.longMessageArr ++ [msgFormat label s.Message]
            perfDataStringArr := fr.perfDataStringArr ++ [perfFormat s.Perfdata] }

/-- The loop `for _, s := range otherStatuses` of `Aggregate`. -/
def aggregateLoop (fr : AggregateFrame) : List NagiosStatus → Except AggregateFrame AggregateFrame
  | [] => .ok fr
  | s :: rest =>
    match aggregateBody fr s with
    | .error e => .error e
    | .ok fr1 => aggregateLoop fr1 rest

/-- Go: `func (status *NagiosStatus) Aggregate(otherStatuses []*NagiosStatus)`. The third
argument is what standard output holds when the call starts. -/
def NagiosStatus.Aggregate (status : NagiosStatus) (otherStatuses : List NagiosStatus)
    (stdout : List String) : CallResult :=
  match aggregateLoop
      { status := status, stdout := stdout, perfDataStringArr := [], longMessageArr := [],
        msg := "" } otherStatuses with
  | .error fr => { status := fr.status, stdout := fr.stdout, outcome := .panicked }
  | .ok fr =>
    -- if len(longMessageArr) > 0 { msg += "\n" + strings.Join(longMessageArr, "\n") }
    let msg :=
      if fr.longMessageArr.length > 0 then
        fr.msg ++ ("\n" ++ stringsJoin fr.longMessageArr "\n")
      else fr.msg
    -- if len(perfDataStringArr) > 0 { msg += " | " + strings.Join(perfDataStringArr, "\n") }
    let msg :=
      if fr.perfDataStringArr.length > 0 then
        msg ++ (" | " ++ stringsJoin fr.perfDataStringArr "\n")
      else msg
    -- status.Message = msg
    { status := { fr.status with Message := msg }, stdout := fr.stdout, outcome := .returned }

/-- Go: `func (status *NagiosStatus) constructedNagiosMessage() string`; `none` is the panic
of `valMessages[status.Value]`. -/
def NagiosStatus.constructedNagiosMessage (status : NagiosStatus) : Option String :=
  match valMessagesAt status.Value with
  | none => none
  | some label => some (label ++ " " ++ status.Message)

/-- Go: `func (status *NagiosStatus) NagiosExit()`: `fmt.Fprintln(os.Stdout, ...)`, then
`os.Exit(int(status.Value))`. -/
def NagiosStatus.NagiosExit (status : NagiosStatus) (stdout : List String) : CallResult :=
  match status.constructedNagiosMessage with
  | none => { status := status, stdout := stdout, outcome := .panicked }
  | some line =>
    { status := status, stdout := stdout ++ [line ++ "\n"], outcome := .exited status.Value }

/-- Go: `func (status *NagiosStatusWithPerformanceData) constructedNagiosMessage() string`. -/
def NagiosStatusWithPerformanceData.constructedNagiosMessage
    (status : NagiosStatusWithPerformanceData) : Option String :=
  match valMessagesAt status.NagiosStatus.Value with
  | none => none
  | some label =>
    -- fmt.Sprintf("%s %s | '%s'=%s%s;%s;%s;%s;%s", ...)
    some (label ++ " " ++ status.NagiosStatus.Message ++ " | '" ++ status.Perfdata.Label ++
      "'=" ++ status.Perfdata.Value ++ status.Perfdata.Uom ++ ";" ++
      status.Perfdata.WarnThreshold ++ ";" ++ status.Perfdata.CritThreshold ++ ";" ++
      status.Perfdata.MinValue ++ ";" ++ status.Perfdata.MaxValue)

/-- What can be observed after a call on a `*NagiosStatusWithPerformanceData` receiver. -/
structure PerfCallResult where
  status : NagiosStatusWithPerformanceData
  stdout : List String
  outcome : Outcome
deriving DecidableEq

/-- Go: `func (status *NagiosStatusWithPerformanceData) NagiosExit()`. -/
def NagiosStatusWithPerformanceData.NagiosExit (status : NagiosStatusWithPerformanceData)
    (stdout : List String) : PerfCallResult :=
  match status.constructedNagiosMessage with
  | none => { status := status, stdout := stdout, outcome := .panicked }
  | some line =>
    { status := status, stdout := stdout ++ [line ++ "\n"],
      outcome := .exited status.NagiosStatus.Value }

/-- Go: `func ExitWithStatus(status *NagiosStatus)`. -/
def ExitWithStatus (status : NagiosStatus) (stdout : List String) : CallResult :=
  status.NagiosExit stdout

/-- Go: `func Unknown(output string)`. -/
def Unknown (output : String) (stdout : List String) : CallResult :=
  ExitWithStatus { Message := output, Value := NAGIOS_UNKNOWN, Perfdata := .zero } stdout

/-- Go: a non-nil value of the interface type `error`, seen through its `Error()` method. -/
structure GoError where
  Error : String
deriving DecidableEq

/-- Go: `func Critical(err error)`. `none` is the nil interface value, on which the method
call `err.Error()` panics before any status is built. -/
def Critical (err : Option GoError) (stdout : List String) : Option CallResult :=
  match err with
  | none => none
  | some e =>
    some (ExitWithStatus { Message := e.Error, Value := NAGIOS_CRITICAL, Perfdata := .zero } stdout)

/-- Go: `func Warning(output string)`. -/
def Warning (output : String) (stdout : List String) : CallResult :=
  ExitWithStatus { Message := output, Value := NAGIOS_WARNING, Perfdata := .zero } stdout

/-- Go: `func Ok(output string)`. -/
def Ok (output : String) (stdout : List String) : CallResult :=
  ExitWithStatus { Message := output, Value := NAGIOS_OK, Perfdata := .zero } stdout

/-- The four values a severity may take. -/
def validValue (v : NagiosStatusVal) : Prop := (0 : Int) ≤ v ∧ v ≤ (3 : Int)

instance (v : NagiosStatusVal) : Decidable (validValue v) := by
  unfold validValue; infer_instance

/-- The parent of the aggregation tests: `NagiosStatus{"Uh oh", NAGIOS_CRITICAL}`. -/
def testParent : NagiosStatus :=
  { Message := "Uh oh", Value := NAGIOS_CRITICAL, Perfdata := .zero }

/-- The children of the aggregation tests: `("ok", OK)` and `("Not so bad", WARNING)`. -/
def testChildren : List NagiosStatus :=
  [{ Message := "ok", Value := NAGIOS_OK, Perfdata := .zero },
   { Message := "Not so bad", Value := NAGIOS_WARNING, Perfdata := .zero }]

/-- The metric of the rendering example: latency, 120 ms, thresholds 100 and 200, no bounds. -/
def latencyMetric : NagiosPerformanceVal :=
  { Label := "latency", Value := "120", Uom := "ms", WarnThreshold := "100",
    CritThreshold := "200", MinValue := "", MaxValue := "" }

/-- The label of a severity, the empty string where `valMessages[v]` would panic. -/
def labelOf (v : NagiosStatusVal) : String :=
  (valMessagesAt v).getD ""

/-- The worst (numerically largest) of a starting value and the values of the children. -/
def worstValue (start : NagiosStatusVal) (children : List NagiosStatus) : NagiosStatusVal :=
  children.foldl (fun acc c => max acc c.Value) start

/-! ### `Aggregate` on pointers

The same method with its pointers kept: the objects live in a store, a pointer is an index
into it, and an index past the end stands for a nil pointer, whose dereference panics. Here
a child may be the receiver itself. -/

/-- The store, standard output and the local variables of `Aggregate` during its loop. -/
structure StoreFrame where
  store : List NagiosStatus
  stdout : List String
  perfDataStringArr : List String
  longMessageArr : List String
  msg : String
deriving DecidableEq

/-- One pass through the loop body of `Aggregate`, `status` and `s` being pointers. Every
field access reads the store as it is at that point of the body. -/
def aggregateBodyAt (status : Nat) (fr : StoreFrame) (s : Nat) :
    Except StoreFrame StoreFrame :=
  -- the arguments of fmt.Printf read the fields of *s
  match fr.store[s]? with
  | none => .error fr
  | some child =>
    let fr := { fr with stdout := fr.stdout ++ [aggregatePrintf child] }
    -- if status.Value < s.Value { status.Value = s.Value }
    match fr.store[status]? with
    | none => .error fr
    | some parent =>
      let fr :=
        if parent.Value < child.Value then
          { fr with store := fr.store.set status { parent with Value := child.Value } }
        else fr
      -- status.Message, s.Value, s.Message and s.Perfdata are read after the assignment
      match fr.store[status]?, fr.store[s]? with
      | some parent, some child =>
        if parent.Message = "" then
          match valMessagesAt child.Value with
          | none => .error fr
          | some label =>
            .ok { fr with
                  msg := msgFormat label child.Message ++ " | " ++ perfFormat child.Perfdata }
        else
          match valMessagesAt child.Value with
          | none => .error fr
          | some label =>
            .ok { fr with
                  longMessageArr := fr.longMessageArr ++ [msgFormat label child.Message]
                  perfDataStringArr := fr.perfDataStringArr ++ [perfFormat child.Perfdata] }
      | _, _ => .error fr

/-- The loop of `Aggregate` over a slice of pointers. -/
def aggregateLoopAt (status : Nat) (fr : StoreFrame) : List Nat → Except StoreFrame StoreFrame
  | [] => .ok fr
  | s :: rest =>
    match aggregateBodyAt status fr s with
    | .error e => .error e
    | .ok fr1 => aggregateLoopAt status fr1 rest

/-- What can be observed after a call of `Aggregate` on pointers: the whole store, standard
output, and how the call ended. -/
structure StoreResult where
  store : List NagiosStatus
  stdout : List String
  outcome : Outcome
deriving DecidableEq

/-- Go: `func (status *NagiosStatus) Aggregate(otherStatuses []*NagiosStatus)` with the
receiver and the slice elements as pointers into `store`. -/
def AggregateAt (store : List NagiosStatus) (status : Nat) (otherStatuses : List Nat)
    (stdout : List String) : StoreResult :=
  match aggregateLoopAt status
      { store := store, stdout := stdout, perfDataStringArr := [], longMessageArr := [],
        msg := "" } otherStatuses with
  | .error fr => { store := fr.store, stdout := fr.stdout, outcome := .panicked }
  | .ok fr =>
    let msg :=
      if fr.longMessageArr.length > 0 then
        fr.msg ++ ("\n" ++ stringsJoin fr.longMessageArr "\n")
      else fr.msg
    let msg :=
      if fr.perfDataStringArr.length > 0 then
        msg ++ (" | " ++ stringsJoin fr.perfDataStringArr "\n")
      else msg
    -- status.Message = msg
    match fr.store[status]? with
    | none => { store := fr.store, stdout := fr.stdout, outcome := .panicked }
    | some parent =>
      { store := fr.store.set status { parent with Message := msg }, stdout := fr.stdout,
        outcome := .returned }

/-- The frame of the value-level loop placed in a store: the receiver lives at `status`, all
other objects are those of `store`. -/
def AggregateFrame.inStore (store : List NagiosStatus) (status : Nat) (fr : AggregateFrame) :
    StoreFrame :=
  { store := store.set status fr.status, stdout := fr.stdout,
    perfDataStringArr := fr.perfDataStringArr, longMessageArr := fr.longMessageArr,
    msg := fr.msg }

/-- A store with three objects: the parent of the aggregation tests at 0, its children at 1
and 2. -/
def testStore : List NagiosStatus :=
  testParent :: testChildren

/-- The frame of a call on the receiver at `status`: the store keeps its size, every object
at another address is what it was, and the receiver keeps its `Perfdata`. -/
def frameOf (status : Nat) (before after : List NagiosStatus) : Prop :=
  after.length = before.length ∧
    (∀ a : Nat, a ≠ status → after[a]? = before[a]?) ∧
    (after[status]?).map (fun o => o.Perfdata) = (before[status]?).map (fun o => o.Perfdata)

/-- The frame in which a pass of the loop ended, by a panic or not. -/
def endFrame : Except StoreFrame StoreFrame → StoreFrame
  | .ok fr => fr
  | .error fr => fr

/-- The outcome of a pass of the value-level loop placed in a store. -/
def passInStore (store : List NagiosStatus) (status : Nat) :
    Except AggregateFrame AggregateFrame → Except StoreFrame StoreFrame
  | .ok fr => .ok (fr.inStore store status)
  | .error fr => .error (fr.inStore store status)

/-! ## The label table -/

theorem valMessagesAt_eq_labelOf {v : NagiosStatusVal} (h : validValue v) :
    valMessagesAt v = some (labelOf v) := by
  obtain ⟨h0, h3⟩ := h
  interval_cases v <;> decide

theorem valMessagesAt_none {v : Int} (h : ¬ validValue v) :
    valMessagesAt v = none := by
  unfold valMessagesAt
  by_cases h0 : (0 : Int) ≤ v
  · have h3 : ¬ v ≤ 3 := fun h3 => h ⟨h0, h3⟩
    have h4 : valMessages.length ≤ v.toNat := by
      simp only [valMessages, List.length_cons, List.length_nil]
      omega
    rw [if_pos h0]
    exact List.get?_eq_none.mpr h4
  · rw [if_neg h0]

/-! ## The loop of `Aggregate` -/

theorem aggregateBody_empty (fr : AggregateFrame) (s : NagiosStatus)
    (hm : fr.status.Message = "") (hv : validValue s.Value) :
    aggregateBody fr s = .ok
      { status := { fr.status with Value := max fr.status.Value s.Value }
        stdout := fr.stdout ++ [aggregatePrintf s]
        perfDataStringArr := fr.perfDataStringArr
        longMessageArr := fr.longMessageArr
        msg := msgFormat (labelOf s.Value) s.Message ++ " | " ++ perfFormat s.Perfdata } := by
  obtain ⟨⟨m, v, p⟩, out, perfs, longs, msg⟩ := fr
  simp only at hm
  unfold aggregateBody
  by_cases hlt : v < s.Value
  · simp [hlt, hm, valMessagesAt_eq_labelOf hv, max_eq_right (le_of_lt hlt)]
  · simp [hlt, hm, valMessagesAt_eq_labelOf hv, max_eq_left (not_lt.mp hlt)]

theorem aggregateBody_nonempty (fr : AggregateFrame) (s : NagiosStatus)
    (hm : fr.status.Message ≠ "") (hv : validValue s.Value) :
    aggregateBody fr s = .ok
      { status := { fr.status with Value := max fr.status.Value s.Value }
        stdout := fr.stdout ++ [aggregatePrintf s]
        perfDataStringArr := fr.perfDataStringArr ++ [perfFormat s.Perfdata]
        longMessageArr := fr.longMessageArr ++ [msgFormat (labelOf s.Value) s.Message]
        msg := fr.msg } := by
  obtain ⟨⟨m, v, p⟩, out, perfs, longs, msg⟩ := fr
  simp only at hm
  unfold aggregateBody
  by_cases hlt : v < s.Value
  · simp [hlt, hm, valMessagesAt_eq_labelOf hv, max_eq_right (le_of_lt hlt)]
  · simp [hlt, hm, valMessagesAt_eq_labelOf hv, max_eq_left (not_lt.mp hlt)]

theorem aggregateLoop_empty (cs : List NagiosStatus) :
    ∀ fr : AggregateFrame, fr.status.Message = "" → (∀ c ∈ cs, validValue c.Value) →
      aggregateLoop fr cs = .ok
        { status := { fr.status with Value := worstValue fr.status.Value cs }
          stdout := fr.stdout ++ cs.map aggregatePrintf
          perfDataStringArr := fr.perfDataStringArr
          longMessageArr := fr.longMessageArr
          msg := cs.foldl
            (fun _ c => msgFormat (labelOf c.Value) c.Message ++ " | " ++ perfFormat c.Perfdata)
            fr.msg } := by
  induction cs with
  | nil => intro fr _ _; simp [aggregateLoop, worstValue]
  | cons s rest ih =>
    intro fr hm hv
    have hs : validValue s.Value := hv s (List.mem_cons_self _ _)
    have hrest : ∀ c ∈ rest, validValue c.Value := fun c hc => hv c (List.mem_cons_of_mem _ hc)
    rw [aggregateLoop, aggregateBody_empty fr s hm hs]
    simp only
    refine (ih _ (by exact hm) hrest).trans ?_
    simp [worstValue]

theorem aggregateLoop_nonempty (cs : List NagiosStatus) :
    ∀ fr : AggregateFrame, fr.status.Message ≠ "" → (∀ c ∈ cs, validValue c.Value) →
      aggregateLoop fr cs = .ok
        { status := { fr.status with Value := worstValue fr.status.Value cs }
          stdout := fr.stdout ++ cs.map aggregatePrintf
          perfDataStringArr := fr.perfDataStringArr ++ cs.map (fun c => perfFormat c.Perfdata)
          longMessageArr :=
            fr.longMessageArr ++ cs.map (fun c => msgFormat (labelOf c.Value) c.Message)
          msg := fr.msg } := by
  induction cs with
  | nil => intro fr _ _; simp [aggregateLoop, worstValue]
  | cons s rest ih =>
    intro fr hm hv
    have hs : validValue s.Value := hv s (List.mem_cons_self _ _)
    have hrest : ∀ c ∈ rest, validValue c.Value := fun c hc => hv c (List.mem_cons_of_mem _ hc)
    rw [aggregateLoop, aggregateBody_nonempty fr s hm hs]
    simp only
    refine (ih _ (by exact hm) hrest).trans ?_
    simp [worstValue]

/-- Closed form of `Aggregate` on a receiver whose message is empty. -/
theorem Aggregate_of_empty (status : NagiosStatus) (cs : List NagiosStatus)
    (out : List String) (hm : status.Message = "") (hv : ∀ c ∈ cs, validValue c.Value) :
    status.Aggregate cs out =
      { status :=
          { status with
            Value := worstValue status.Value cs
            Message := cs.foldl
              (fun _ c => msgFormat (labelOf c.Value) c.Message ++ " | " ++ perfFormat c.Perfdata)
              "" }
        stdout := out ++ cs.map aggregatePrintf
        outcome := .returned } := by
  unfold NagiosStatus.Aggregate
  rw [aggregateLoop_empty cs _ hm hv]
  simp

/-- Closed form of `Aggregate` on a receiver whose message is not empty. -/
theorem Aggregate_of_nonempty (status : NagiosStatus) (cs : List NagiosStatus)
    (out : List String) (hm : status.Message ≠ "") (hv : ∀ c ∈ cs, validValue c.Value) :
    status.Aggregate cs out =
      { status :=
          { status with
            Value := worstValue status.Value cs
            Message :=
              if cs = [] then ""
              else
                "" ++ ("\n" ++
                    stringsJoin (cs.map (fun c => msgFormat (labelOf c.Value) c.Message)) "\n") ++
                  (" | " ++ stringsJoin (cs.map (fun c => perfFormat c.Perfdata)) "\n") }
        stdout := out ++ cs.map aggregatePrintf
        outcome := .returned } := by
  unfold NagiosStatus.Aggregate
  rw [aggregateLoop_nonempty cs _ hm hv]
  cases cs with
  | nil => simp
  | cons c rest => simp

/-! ## The worst value -/

theorem worstValue_start_le (cs : List NagiosStatus) :
    ∀ a : NagiosStatusVal, a ≤ worstValue a cs := by
  induction cs with
  | nil => intro a; simp [worstValue]
  | cons c rest ih =>
    intro a
    have h := ih (max a c.Value)
    simp only [worstValue, List.foldl_cons] at h ⊢
    exact le_trans (le_max_left _ _) h

theorem worstValue_mem_le (cs : List NagiosStatus) :
    ∀ a : NagiosStatusVal, ∀ c ∈ cs, c.Value ≤ worstValue a cs := by
  induction cs with
  | nil => intro a c hc; cases hc
  | cons d rest ih =>
    intro a c hc
    rcases List.mem_cons.mp hc with rfl | hmem
    · have h := worstValue_start_le rest (max a c.Value)
      simp only [worstValue, List.foldl_cons] at h ⊢
      exact le_trans (le_max_right _ _) h
    · have h := ih (max a d.Value) c hmem
      simpa only [worstValue, List.foldl_cons] using h

theorem worstValue_attained (cs : List NagiosStatus) :
    ∀ a : NagiosStatusVal, worstValue a cs = a ∨ ∃ c ∈ cs, worstValue a cs = c.Value := by
  induction cs with
  | nil => intro a; left; simp [worstValue]
  | cons d rest ih =>
    intro a
    have h := ih (max a d.Value)
    simp only [worstValue, List.foldl_cons] at h ⊢
    rcases h with h | ⟨c, hc, h⟩
    · rcases max_choice a d.Value with hmax | hmax
      · left; rw [h, hmax]
      · right; exact ⟨d, List.mem_cons_self _ _, by rw [h, hmax]⟩
    · right; exact ⟨c, List.mem_cons_of_mem _ hc, h⟩

theorem worstValue_eq_foldl_max (cs : List NagiosStatus) :
    ∀ a : NagiosStatusVal, worstValue a cs = (cs.map (fun c => c.Value)).foldl max a := by
  induction cs with
  | nil => intro a; rfl
  | cons d rest ih =>
    intro a
    have h := ih (max a d.Value)
    simpa only [worstValue, List.foldl_cons, List.map_cons] using h

/-- With children in range, `Aggregate` returns and leaves the worst value in the receiver. -/
theorem Aggregate_value (status : NagiosStatus) (cs : List NagiosStatus) (out : List String)
    (hv : ∀ c ∈ cs, validValue c.Value) :
    (status.Aggregate cs out).outcome = .returned ∧
      (status.Aggregate cs out).status.Value = worstValue status.Value cs := by
  by_cases hm : status.Message = ""
  · rw [Aggregate_of_empty status cs out hm hv]
    exact ⟨rfl, rfl⟩
  · rw [Aggregate_of_nonempty status cs out hm hv]
    exact ⟨rfl, rfl⟩

/-- C1: for children whose values are all in 0..3, `Aggregate` returns and the receiver's
value is the maximum of its original value and the children's values (a fold of `max`, an
upper bound of all of them that is attained by one of them); aggregating a single child of
severity B into a parent of severity A gives `max A B`, so a tie changes nothing. -/
theorem C1_aggregate_value_is_maximum (status : NagiosStatus) (cs : List NagiosStatus)
    (out : List String) (hv : ∀ c ∈ cs, validValue c.Value) :
    (status.Aggregate cs out).outcome = .returned ∧
      (status.Aggregate cs out).status.Value =
        (cs.map (fun c => c.Value)).foldl max status.Value ∧
      status.Value ≤ (status.Aggregate cs out).status.Value ∧
      (∀ c ∈ cs, c.Value ≤ (status.Aggregate cs out).status.Value) ∧
      ((status.Aggregate cs out).status.Value = status.Value ∨
        ∃ c ∈ cs, (status.Aggregate cs out).status.Value = c.Value) ∧
      (∀ child : NagiosStatus, validValue child.Value →
        (status.Aggregate [child] out).status.Value = max status.Value child.Value) := by
  obtain ⟨hret, hval⟩ := Aggregate_value status cs out hv
  refine ⟨hret, ?_, ?_, ?_, ?_, ?_⟩
  · rw [hval]; exact worstValue_eq_foldl_max cs status.Value
  · rw [hval]; exact worstValue_start_le cs status.Value
  · rw [hval]; exact worstValue_mem_le cs status.Value
  · rw [hval]; exact worstValue_attained cs status.Value
  · intro child hchild
    have h1 : ∀ c ∈ [child], validValue c.Value := by
      intro c hc
      rw [List.mem_singleton.mp hc]
      exact hchild
    rw [(Aggregate_value status [child] out h1).2]
    rfl

/-- Witness of C1 on the statuses of the aggregation test. -/
theorem C1_aggregate_value_is_maximum_witness :
    (testParent.Aggregate testChildren []).outcome = .returned ∧
      (testParent.Aggregate testChildren []).status.Value = NAGIOS_CRITICAL :=
  ⟨(C1_aggregate_value_is_maximum testParent testChildren [] (by decide)).1,
   (C1_aggregate_value_is_maximum testParent testChildren [] (by decide)).2.1.trans
     (by decide)⟩

/-! ## Rendering and exit -/

theorem constructedNagiosMessage_of_valid (status : NagiosStatus)
    (hv : validValue status.Value) :
    status.constructedNagiosMessage = some (labelOf status.Value ++ " " ++ status.Message) := by
  unfold NagiosStatus.constructedNagiosMessage
  rw [valMessagesAt_eq_labelOf hv]

theorem perf_constructedNagiosMessage_of_valid (status : NagiosStatusWithPerformanceData)
    (hv : validValue status.NagiosStatus.Value) :
    status.constructedNagiosMessage =
      some (labelOf status.NagiosStatus.Value ++ " " ++ status.NagiosStatus.Message ++ " | '" ++
        status.Perfdata.Label ++ "'=" ++ status.Perfdata.Value ++ status.Perfdata.Uom ++ ";" ++
        status.Perfdata.WarnThreshold ++ ";" ++ status.Perfdata.CritThreshold ++ ";" ++
        status.Perfdata.MinValue ++ ";" ++ status.Perfdata.MaxValue) := by
  unfold NagiosStatusWithPerformanceData.constructedNagiosMessage
  rw [valMessagesAt_eq_labelOf hv]

theorem validValue_cases {v : Int} (hv : validValue v) : v = 0 ∨ v = 1 ∨ v = 2 ∨ v = 3 := by
  obtain ⟨h0, h3⟩ := hv
  interval_cases v <;> simp

/-- C2: for a status with value in 0..3, `NagiosExit` (and `ExitWithStatus`, which calls it)
appends exactly one write to standard output, the rendered message followed by a newline,
and ends the process with the value as exit code, which is 0, 1, 2 or 3; the same holds for
`NagiosExit` of a status with performance data. -/
theorem C2_exit_writes_line_and_exits_with_value (status : NagiosStatus)
    (pstatus : NagiosStatusWithPerformanceData) (out : List String)
    (hv : validValue status.Value) (hpv : validValue pstatus.NagiosStatus.Value) :
    (∃ line, status.constructedNagiosMessage = some line ∧
      status.NagiosExit out =
        { status := status, stdout := out ++ [line ++ "\n"], outcome := .exited status.Value } ∧
      ExitWithStatus status out =
        { status := status, stdout := out ++ [line ++ "\n"], outcome := .exited status.Value }) ∧
    (∃ line, pstatus.constructedNagiosMessage = some line ∧
      pstatus.NagiosExit out =
        { status := pstatus, stdout := out ++ [line ++ "\n"],
          outcome := .exited pstatus.NagiosStatus.Value }) ∧
    (status.Value = 0 ∨ status.Value = 1 ∨ status.Value = 2 ∨ status.Value = 3) ∧
    (pstatus.NagiosStatus.Value = 0 ∨ pstatus.NagiosStatus.Value = 1 ∨
      pstatus.NagiosStatus.Value = 2 ∨ pstatus.NagiosStatus.Value = 3) := by
  refine ⟨?_, ?_, validValue_cases hv, validValue_cases hpv⟩
  · have h := constructedNagiosMessage_of_valid status hv
    refine ⟨_, h, ?_, ?_⟩
    · unfold NagiosStatus.NagiosExit
      rw [h]
    · unfold ExitWithStatus NagiosStatus.NagiosExit
      rw [h]
  · have h := perf_constructedNagiosMessage_of_valid pstatus hpv
    refine ⟨_, h, ?_⟩
    unfold NagiosStatusWithPerformanceData.NagiosExit
    rw [h]

/-- Witness of C2: the critical test status, alone and with the latency metric. -/
theorem C2_exit_writes_line_and_exits_with_value_witness :
    testParent.NagiosExit [] =
        { status := testParent, stdout := ["CRITICAL: Uh oh\n"], outcome := .exited 2 } ∧
      NagiosStatusWithPerformanceData.NagiosExit
          { NagiosStatus := testParent, Perfdata := latencyMetric } [] =
        { status := { NagiosStatus := testParent, Perfdata := latencyMetric },
          stdout := ["CRITICAL: Uh oh | 'latency'=120ms;100;200;;\n"], outcome := .exited 2 } := by
  have h := C2_exit_writes_line_and_exits_with_value testParent
    { NagiosStatus := testParent, Perfdata := latencyMetric } [] (by decide) (by decide)
  obtain ⟨⟨l1, h1, h2, _⟩, ⟨l2, h3, h4⟩, _, _⟩ := h
  have e1 : l1 = "CRITICAL: Uh oh" := by
    have : testParent.constructedNagiosMessage = some "CRITICAL: Uh oh" := by decide
    rw [this] at h1
    exact (Option.some.inj h1).symm
  have e2 : l2 = "CRITICAL: Uh oh | 'latency'=120ms;100;200;;" := by
    have : NagiosStatusWithPerformanceData.constructedNagiosMessage
        { NagiosStatus := testParent, Perfdata := latencyMetric } =
          some "CRITICAL: Uh oh | 'latency'=120ms;100;200;;" := by decide
    rw [this] at h3
    exact (Option.some.inj h3).symm
  subst e1 e2
  exact ⟨h2, h4⟩

/-- C3: for a status with value in 0..3 and any message `m`, `constructedNagiosMessage`
returns the severity label, one space and `m`: "OK: m", "WARNING: m", "CRITICAL: m",
"UNKNOWN: m" for the values 0, 1, 2, 3, whatever the performance data; the test cases
"UNKNOWN: Shrug dunno" and "CRITICAL: Uh oh" are instances. -/
theorem C3_constructedNagiosMessage_is_label_space_message (status : NagiosStatus)
    (hv : validValue status.Value) :
    (∃ label, valMessagesAt status.Value = some label ∧
      status.constructedNagiosMessage = some (label ++ " " ++ status.Message)) ∧
    (status.Value = NAGIOS_OK →
      status.constructedNagiosMessage = some ("OK: " ++ status.Message)) ∧
    (status.Value = NAGIOS_WARNING →
      status.constructedNagiosMessage = some ("WARNING: " ++ status.Message)) ∧
    (status.Value = NAGIOS_CRITICAL →
      status.constructedNagiosMessage = some ("CRITICAL: " ++ status.Message)) ∧
    (status.Value = NAGIOS_UNKNOWN →
      status.constructedNagiosMessage = some ("UNKNOWN: " ++ status.Message)) := by
  have h := constructedNagiosMessage_of_valid status hv
  refine ⟨⟨_, valMessagesAt_eq_labelOf hv, h⟩, ?_, ?_, ?_, ?_⟩
  all_goals
    intro hval
    rw [h, hval, String.append_assoc]
    rfl

/-- Witness of C3: the two renderings checked by the test file. -/
theorem C3_constructedNagiosMessage_is_label_space_message_witness :
    NagiosStatus.constructedNagiosMessage
        { Message := "Shrug dunno", Value := NAGIOS_UNKNOWN, Perfdata := .zero } =
      some "UNKNOWN: Shrug dunno" ∧
    NagiosStatus.constructedNagiosMessage
        { Message := "Uh oh", Value := NAGIOS_CRITICAL, Perfdata := .zero } =
      some "CRITICAL: Uh oh" :=
  ⟨(C3_constructedNagiosMessage_is_label_space_message
      { Message := "Shrug dunno", Value := NAGIOS_UNKNOWN, Perfdata := .zero }
      (by decide)).2.2.2.2 rfl,
   (C3_constructedNagiosMessage_is_label_space_message
      { Message := "Uh oh", Value := NAGIOS_CRITICAL, Perfdata := .zero }
      (by decide)).2.2.2.1 rfl⟩

/-- C4: for a status with performance data and value in 0..3, `constructedNagiosMessage`
returns label, space, message, then " | '" Label "'=" Value Uom ";" Warn ";" Crit ";" Min ";"
Max, every field in its position even when empty; with the latency metric the output ends
with " | 'latency'=120ms;100;200;;", with the zero metric it ends with " | ''=;;;;". -/
theorem C4_perf_message_format (pstatus : NagiosStatusWithPerformanceData)
    (hv : validValue pstatus.NagiosStatus.Value) :
    ∃ label, valMessagesAt pstatus.NagiosStatus.Value = some label ∧
      pstatus.constructedNagiosMessage =
        some (label ++ " " ++ pstatus.NagiosStatus.Message ++ " | '" ++ pstatus.Perfdata.Label ++
          "'=" ++ pstatus.Perfdata.Value ++ pstatus.Perfdata.Uom ++ ";" ++
          pstatus.Perfdata.WarnThreshold ++ ";" ++ pstatus.Perfdata.CritThreshold ++ ";" ++
          pstatus.Perfdata.MinValue ++ ";" ++ pstatus.Perfdata.MaxValue) ∧
      (pstatus.Perfdata = latencyMetric →
        pstatus.constructedNagiosMessage =
          some (label ++ " " ++ pstatus.NagiosStatus.Message ++
            " | 'latency'=120ms;100;200;;")) ∧
      (pstatus.Perfdata = NagiosPerformanceVal.zero →
        pstatus.constructedNagiosMessage =
          some (label ++ " " ++ pstatus.NagiosStatus.Message ++ " | ''=;;;;")) := by
  have h := perf_constructedNagiosMessage_of_valid pstatus hv
  refine ⟨_, valMessagesAt_eq_labelOf hv, h, ?_, ?_⟩
  · intro hp
    rw [h, hp]
    simp only [latencyMetric, String.append_assoc]
    rfl
  · intro hp
    rw [h, hp]
    simp only [NagiosPerformanceVal.zero, String.append_assoc]
    rfl

/-- Witness of C4: the critical test status with the latency metric. -/
theorem C4_perf_message_format_witness :
    ∃ label, valMessagesAt NAGIOS_CRITICAL = some label ∧
      NagiosStatusWithPerformanceData.constructedNagiosMessage
          { NagiosStatus := testParent, Perfdata := latencyMetric } =
        some (label ++ " " ++ "Uh oh" ++ " | 'latency'=120ms;100;200;;") := by
  obtain ⟨label, h1, _, h3, _⟩ :=
    C4_perf_message_format { NagiosStatus := testParent, Perfdata := latencyMetric } (by decide)
  exact ⟨label, h1, h3 rfl⟩

theorem NagiosExit_of_label (status : NagiosStatus) (out : List String) (label : String)
    (h : valMessagesAt status.Value = some label) :
    status.NagiosExit out =
      { status := status, stdout := out ++ [label ++ " " ++ status.Message ++ "\n"],
        outcome := .exited status.Value } := by
  unfold NagiosStatus.NagiosExit NagiosStatus.constructedNagiosMessage
  rw [h]

theorem valMessagesAt_valid {v : Int} {label : String} (h : valMessagesAt v = some label) :
    validValue v := by
  by_contra hn
  rw [valMessagesAt_none hn] at h
  cases h

/-- C8: the label table has exactly four entries, "OK:", "WARNING:", "CRITICAL:" and
"UNKNOWN:" for the values 0, 1, 2 and 3; a lookup succeeds exactly on these four values; the
labels are pairwise distinct, so a label determines the severity. -/
theorem C8_label_table :
    valMessages.length = 4 ∧
    valMessagesAt NAGIOS_OK = some "OK:" ∧
    valMessagesAt NAGIOS_WARNING = some "WARNING:" ∧
    valMessagesAt NAGIOS_CRITICAL = some "CRITICAL:" ∧
    valMessagesAt NAGIOS_UNKNOWN = some "UNKNOWN:" ∧
    NAGIOS_OK = 0 ∧ NAGIOS_WARNING = 1 ∧ NAGIOS_CRITICAL = 2 ∧ NAGIOS_UNKNOWN = 3 ∧
    (∀ v : NagiosStatusVal, (valMessagesAt v).isSome = true ↔ validValue v) ∧
    (∀ (a b : NagiosStatusVal) (label : String),
      valMessagesAt a = some label → valMessagesAt b = some label → a = b) := by
  refine ⟨rfl, rfl, rfl, rfl, rfl, rfl, rfl, rfl, rfl, ?_, ?_⟩
  · intro v
    constructor
    · intro h
      obtain ⟨label, hl⟩ := Option.isSome_iff_exists.mp h
      exact valMessagesAt_valid hl
    · intro h
      rw [valMessagesAt_eq_labelOf h]
      rfl
  · intro a b label ha hb
    have hab : valMessagesAt a = valMessagesAt b := ha.trans hb.symm
    rcases validValue_cases (valMessagesAt_valid ha) with h | h | h | h <;>
      rcases validValue_cases (valMessagesAt_valid hb) with h' | h' | h' | h' <;>
      subst h <;> subst h' <;>
      first
        | rfl
        | exact absurd hab (by decide)

/-- Witness of C8: the label "CRITICAL:" determines the severity 2. -/
theorem C8_label_table_witness :
    valMessagesAt 2 = some "CRITICAL:" ∧ (2 : NagiosStatusVal) = NAGIOS_CRITICAL :=
  ⟨rfl, C8_label_table.2.2.2.2.2.2.2.2.2.2 2 NAGIOS_CRITICAL "CRITICAL:" rfl rfl⟩

/-- C9: `Ok`, `Warning` and `Unknown` write "OK: s", "WARNING: s" and "UNKNOWN: s", each
followed by a newline and with nothing else on the line, and exit with 0, 1 and 3;
`Critical` of an error writes "CRITICAL: " and the error text and exits with 2; the error
"disk full" gives the line "CRITICAL: disk full" and exit code 2. -/
theorem C9_convenience_constructors (s : String) (e : GoError) (out : List String) :
    ((Ok s out).stdout = out ++ ["OK: " ++ s ++ "\n"] ∧ (Ok s out).outcome = .exited 0) ∧
    ((Warning s out).stdout = out ++ ["WARNING: " ++ s ++ "\n"] ∧
      (Warning s out).outcome = .exited 1) ∧
    ((Unknown s out).stdout = out ++ ["UNKNOWN: " ++ s ++ "\n"] ∧
      (Unknown s out).outcome = .exited 3) ∧
    (∃ r, Critical (some e) out = some r ∧
      r.stdout = out ++ ["CRITICAL: " ++ e.Error ++ "\n"] ∧ r.outcome = .exited 2) ∧
    (∃ r, Critical (some { Error := "disk full" }) [] = some r ∧
      r.stdout = ["CRITICAL: disk full\n"] ∧ r.outcome = .exited 2) := by
  have hok := NagiosExit_of_label
    { Message := s, Value := NAGIOS_OK, Perfdata := .zero } out "OK:" rfl
  have hwarn := NagiosExit_of_label
    { Message := s, Value := NAGIOS_WARNING, Perfdata := .zero } out "WARNING:" rfl
  have hunk := NagiosExit_of_label
    { Message := s, Value := NAGIOS_UNKNOWN, Perfdata := .zero } out "UNKNOWN:" rfl
  have hcrit := NagiosExit_of_label
    { Message := e.Error, Value := NAGIOS_CRITICAL, Perfdata := .zero } out "CRITICAL:" rfl
  refine ⟨?_, ?_, ?_, ?_, ?_⟩
  · unfold Ok ExitWithStatus
    rw [hok]
    exact ⟨rfl, rfl⟩
  · unfold Warning ExitWithStatus
    rw [hwarn]
    exact ⟨rfl, rfl⟩
  · unfold Unknown ExitWithStatus
    rw [hunk]
    exact ⟨rfl, rfl⟩
  · refine ⟨_, rfl, ?_, ?_⟩
    · unfold ExitWithStatus
      rw [hcrit]
      rfl
    · unfold ExitWithStatus
      rw [hcrit]
      rfl
  · exact ⟨_, rfl, by decide, by decide⟩

/-! ## The message built by `Aggregate` -/

/-- C5 (defect in the code): on the parent ("Uh oh", CRITICAL) with the children ("ok", OK)
and ("Not so bad", WARNING) `Aggregate` returns, but the parent's message is then
"\nOK: ok\nWARNING: Not so bad | ''=;;;;\n''=;;;;": the primary message "Uh oh" is gone,
the result is not "Uh oh" followed by the block of secondary lines and performance data, and
it does not start with "Uh oh" at all. -/
theorem C5_primary_message_is_dropped :
    (testParent.Aggregate testChildren []).outcome = .returned ∧
    (testParent.Aggregate testChildren []).status.Message =
      "\nOK: ok\nWARNING: Not so bad | ''=;;;;\n''=;;;;" ∧
    (testParent.Aggregate testChildren []).status.Message ≠
      "Uh oh" ++ "\n" ++ stringsJoin ["OK: ok", "WARNING: Not so bad"] "\n" ++ " | " ++
        stringsJoin ["''=;;;;", "''=;;;;"] "\n" ∧
    ¬ ∃ rest : String, (testParent.Aggregate testChildren []).status.Message = "Uh oh" ++ rest := by
  refine ⟨by decide, by decide, by decide, ?_⟩
  rintro ⟨rest, h⟩
  have hm : (testParent.Aggregate testChildren []).status.Message =
      "\nOK: ok\nWARNING: Not so bad | ''=;;;;\n''=;;;;" := by decide
  rw [hm] at h
  have hd := congrArg String.data h
  simp at hd

/-- C6 (defect in the code): on a parent with the empty message and the children ("ok", OK)
and ("Not so bad", WARNING) `Aggregate` returns with the message
"WARNING: Not so bad | ''=;;;;", the rendering of the last child alone: it does not begin
with the first child's "OK: ok | ''=;;;;" and the first child appears nowhere as a line. -/
theorem C6_first_child_is_overwritten :
    (NagiosStatus.Aggregate { Message := "", Value := NAGIOS_OK, Perfdata := .zero }
        testChildren []).outcome = .returned ∧
    (NagiosStatus.Aggregate { Message := "", Value := NAGIOS_OK, Perfdata := .zero }
        testChildren []).status.Message = "WARNING: Not so bad | ''=;;;;" ∧
    ¬ ∃ rest : String,
      (NagiosStatus.Aggregate { Message := "", Value := NAGIOS_OK, Perfdata := .zero }
        testChildren []).status.Message = "OK: ok | ''=;;;;" ++ rest := by
  refine ⟨by decide, by decide, ?_⟩
  rintro ⟨rest, h⟩
  have hm : (NagiosStatus.Aggregate { Message := "", Value := NAGIOS_OK, Perfdata := .zero }
      testChildren []).status.Message = "WARNING: Not so bad | ''=;;;;" := by decide
  rw [hm] at h
  have hd := congrArg String.data h
  simp at hd

/-- C7 (defect in the code): on the parent ("Uh oh", CRITICAL) and no children, the case of
the test "Handles an empty slice", `Aggregate` returns with the value still CRITICAL but with
the message replaced by the empty string instead of "Uh oh". -/
theorem C7_empty_children_clear_message :
    (testParent.Aggregate [] []).outcome = .returned ∧
    (testParent.Aggregate [] []).status.Value = NAGIOS_CRITICAL ∧
    testParent.Message = "Uh oh" ∧
    (testParent.Aggregate [] []).status.Message = "" ∧
    (testParent.Aggregate [] []).status.Message ≠ testParent.Message := by
  decide

/-! ## Performance data in the reported line -/

theorem perf_NagiosExit_of_label (pstatus : NagiosStatusWithPerformanceData)
    (out : List String) (label : String)
    (h : valMessagesAt pstatus.NagiosStatus.Value = some label) :
    pstatus.NagiosExit out =
      { status := pstatus
        stdout := out ++
          [label ++ " " ++ pstatus.NagiosStatus.Message ++ " | " ++ perfFormat pstatus.Perfdata ++
            "\n"]
        outcome := .exited pstatus.NagiosStatus.Value } := by
  unfold NagiosStatusWithPerformanceData.NagiosExit
    NagiosStatusWithPerformanceData.constructedNagiosMessage
  rw [h]
  simp only [perfFormat, String.append_assoc]
  rfl

/-- C10, the claim refuted: the status ("Uh oh", CRITICAL) carrying the latency metric, which
is not the zero value, is reported by `NagiosExit` and `ExitWithStatus` as the line
"CRITICAL: Uh oh" with no performance-data segment. -/
theorem C10_attached_perfdata_is_not_rendered :
    latencyMetric ≠ NagiosPerformanceVal.zero ∧
    (NagiosStatus.NagiosExit
        { Message := "Uh oh", Value := NAGIOS_CRITICAL, Perfdata := latencyMetric } []).stdout =
      ["CRITICAL: Uh oh\n"] ∧
    (ExitWithStatus
        { Message := "Uh oh", Value := NAGIOS_CRITICAL, Perfdata := latencyMetric } []).stdout =
      ["CRITICAL: Uh oh\n"] ∧
    (NagiosStatus.NagiosExit
        { Message := "Uh oh", Value := NAGIOS_CRITICAL, Perfdata := latencyMetric } []).stdout ≠
      ["CRITICAL: Uh oh" ++ " | " ++ perfFormat latencyMetric ++ "\n"] := by
  decide

/-- C10 as amended: for a `NagiosStatus` with value in 0..3 the line reported by `NagiosExit`
and `ExitWithStatus` is label, space, message and a newline whatever its `Perfdata` field
holds, so no " | " segment is appended for the zero value and none for an attached metric;
the segment " | 'Label'=ValueUom;Warn;Crit;Min;Max" is appended by `NagiosExit` of
`NagiosStatusWithPerformanceData`, for every metric, the zero value included. -/
theorem C10_perfdata_rendered_only_by_perf_status (status : NagiosStatus) (out : List String)
    (hv : validValue status.Value) :
    ∃ label, valMessagesAt status.Value = some label ∧
      (status.NagiosExit out).stdout = out ++ [label ++ " " ++ status.Message ++ "\n"] ∧
      (ExitWithStatus status out).stdout = out ++ [label ++ " " ++ status.Message ++ "\n"] ∧
      (∀ p : NagiosPerformanceVal,
        (NagiosStatus.NagiosExit { status with Perfdata := p } out).stdout =
          out ++ [label ++ " " ++ status.Message ++ "\n"]) ∧
      (∀ p : NagiosPerformanceVal,
        (NagiosStatusWithPerformanceData.NagiosExit
            { NagiosStatus := status, Perfdata := p } out).stdout =
          out ++ [label ++ " " ++ status.Message ++ " | " ++ perfFormat p ++ "\n"]) ∧
      (NagiosStatusWithPerformanceData.NagiosExit
          { NagiosStatus := status, Perfdata := .zero } out).stdout =
        out ++ [label ++ " " ++ status.Message ++ " | ''=;;;;" ++ "\n"] := by
  have hl := valMessagesAt_eq_labelOf hv
  refine ⟨_, hl, ?_, ?_, ?_, ?_, ?_⟩
  · rw [NagiosExit_of_label status out _ hl]
  · unfold ExitWithStatus
    rw [NagiosExit_of_label status out _ hl]
  · intro p
    rw [NagiosExit_of_label { status with Perfdata := p } out _ hl]
  · intro p
    rw [perf_NagiosExit_of_label { NagiosStatus := status, Perfdata := p } out _ hl]
  · rw [perf_NagiosExit_of_label { NagiosStatus := status, Perfdata := .zero } out _ hl]
    have hz : perfFormat NagiosPerformanceVal.zero = "''=;;;;" := by decide
    simp only [hz, String.append_assoc]
    rfl

/-- Witness of C10 as amended: the critical status carrying the latency metric. -/
theorem C10_perfdata_rendered_only_by_perf_status_witness :
    ∃ label, valMessagesAt NAGIOS_CRITICAL = some label ∧
      (NagiosStatus.NagiosExit
          { Message := "Uh oh", Value := NAGIOS_CRITICAL, Perfdata := latencyMetric } []).stdout =
        [] ++ [label ++ " " ++ "Uh oh" ++ "\n"] := by
  obtain ⟨label, h1, h2, _⟩ := C10_perfdata_rendered_only_by_perf_status
    { Message := "Uh oh", Value := NAGIOS_CRITICAL, Perfdata := latencyMetric } [] (by decide)
  exact ⟨label, h1, h2⟩

/-! ## Performance data of the children -/

theorem perfFormat_zero : perfFormat NagiosPerformanceVal.zero = "''=;;;;" := by
  decide

theorem map_perfFormat_of_zero (cs : List NagiosStatus)
    (hz : ∀ c ∈ cs, c.Perfdata = NagiosPerformanceVal.zero) :
    cs.map (fun c => perfFormat c.Perfdata) = List.replicate cs.length "''=;;;;" := by
  induction cs with
  | nil => rfl
  | cons c rest ih =>
    have hc : c.Perfdata = NagiosPerformanceVal.zero := hz c (List.mem_cons_self _ _)
    have hrest : ∀ d ∈ rest, d.Perfdata = NagiosPerformanceVal.zero :=
      fun d hd => hz d (List.mem_cons_of_mem _ hd)
    simp only [List.map_cons, List.length_cons, List.replicate_succ, ih hrest, hc,
      perfFormat_zero]

/-- The message left by `Aggregate` on a receiver with a non-empty message and at least one
child: the block of secondary lines, then " | " and the block of performance data. -/
theorem Aggregate_message_of_nonempty (status : NagiosStatus) (cs : List NagiosStatus)
    (out : List String) (hm : status.Message ≠ "") (hne : cs ≠ [])
    (hv : ∀ c ∈ cs, validValue c.Value) :
    (status.Aggregate cs out).status.Message =
      "" ++ ("\n" ++ stringsJoin (cs.map (fun c => msgFormat (labelOf c.Value) c.Message)) "\n") ++
        (" | " ++ stringsJoin (cs.map (fun c => perfFormat c.Perfdata)) "\n") := by
  rw [Aggregate_of_nonempty status cs out hm hv]
  simp only [hne, if_false]

/-- C11, the claim refuted: the parent ("Uh oh", CRITICAL) and the two test children, none of
which carries a metric, end with the message
"\nOK: ok\nWARNING: Not so bad | ''=;;;;\n''=;;;;", which has a performance-data block and
does not end with the last secondary line "WARNING: Not so bad". -/
theorem C11_zero_perfdata_still_adds_block :
    (∀ c ∈ testChildren, c.Perfdata = NagiosPerformanceVal.zero) ∧
    testParent.Message ≠ "" ∧
    (testParent.Aggregate testChildren []).status.Message =
      "\nOK: ok\nWARNING: Not so bad" ++ " | ''=;;;;\n''=;;;;" ∧
    ¬ ∃ head : String,
      (testParent.Aggregate testChildren []).status.Message = head ++ "WARNING: Not so bad" := by
  refine ⟨by decide, by decide, by decide, ?_⟩
  rintro ⟨head, h⟩
  have hm : (testParent.Aggregate testChildren []).status.Message =
      "\nOK: ok\nWARNING: Not so bad | ''=;;;;\n''=;;;;" := by decide
  rw [hm] at h
  have hd := congrArg (fun t : String => t.data.getLast?) h
  simp at hd

/-- C11 as amended: a child without a metric still contributes a performance-data line, the
rendering ''=;;;; of the zero value. For a parent with a non-empty message and a non-empty
sequence of children with values in 0..3 and zero performance data, the message after
`Aggregate` ends with the secondary lines label, space, message of the children joined by
newlines, followed by " | " and one line ''=;;;; per child, joined by newlines. -/
theorem C11_zero_perfdata_renders_empty_metric (status : NagiosStatus)
    (cs : List NagiosStatus) (out : List String) (hm : status.Message ≠ "") (hne : cs ≠ [])
    (hv : ∀ c ∈ cs, validValue c.Value)
    (hz : ∀ c ∈ cs, c.Perfdata = NagiosPerformanceVal.zero) :
    (status.Aggregate cs out).outcome = .returned ∧
    ∃ head : String,
      (status.Aggregate cs out).status.Message =
        head ++ ("\n" ++ stringsJoin (cs.map (fun c => labelOf c.Value ++ " " ++ c.Message)) "\n") ++
          (" | " ++ stringsJoin (List.replicate cs.length "''=;;;;") "\n") := by
  refine ⟨(Aggregate_value status cs out hv).1, "", ?_⟩
  rw [Aggregate_message_of_nonempty status cs out hm hne hv, map_perfFormat_of_zero cs hz]
  rfl

/-- Witness of C11 as amended: the statuses of the aggregation test. -/
theorem C11_zero_perfdata_renders_empty_metric_witness :
    (testParent.Aggregate testChildren []).outcome = .returned ∧
    ∃ head : String,
      (testParent.Aggregate testChildren []).status.Message =
        head ++ ("\n" ++
          stringsJoin (testChildren.map (fun c => labelOf c.Value ++ " " ++ c.Message)) "\n") ++
          (" | " ++ stringsJoin (List.replicate testChildren.length "''=;;;;") "\n") :=
  C11_zero_perfdata_renders_empty_metric testParent testChildren [] (by decide) (by decide)
    (by decide) (by decide)

/-! ## Standard output of `Aggregate` -/

theorem worstValue_valid (cs : List NagiosStatus) (a : NagiosStatusVal) (ha : validValue a)
    (hv : ∀ c ∈ cs, validValue c.Value) : validValue (worstValue a cs) := by
  rcases worstValue_attained cs a with h | ⟨c, hc, h⟩
  · rw [h]; exact ha
  · rw [h]; exact hv c hc

/-- With children in range, `Aggregate` appends one echo line per child to standard output,
in child order, and nothing else. -/
theorem Aggregate_stdout (status : NagiosStatus) (cs : List NagiosStatus) (out : List String)
    (hv : ∀ c ∈ cs, validValue c.Value) :
    (status.Aggregate cs out).stdout = out ++ cs.map aggregatePrintf := by
  by_cases hm : status.Message = ""
  · rw [Aggregate_of_empty status cs out hm hv]
  · rw [Aggregate_of_nonempty status cs out hm hv]

/-- C12, the claim refuted: on the statuses of the aggregation test `Aggregate` writes two
lines to standard output, one per child, so that `Aggregate` followed by `ExitWithStatus`
leaves three writes, not one. -/
theorem C12_aggregate_writes_to_stdout :
    (testParent.Aggregate testChildren []).stdout =
      ["Status: 0 Message: ok PerfData: ''=;;;;\n",
       "Status: 1 Message: Not so bad PerfData: ''=;;;;\n"] ∧
    (testParent.Aggregate testChildren []).stdout ≠ [] ∧
    (ExitWithStatus (testParent.Aggregate testChildren []).status
        (testParent.Aggregate testChildren []).stdout).stdout =
      ["Status: 0 Message: ok PerfData: ''=;;;;\n",
       "Status: 1 Message: Not so bad PerfData: ''=;;;;\n",
       "CRITICAL: \nOK: ok\nWARNING: Not so bad | ''=;;;;\n''=;;;;\n"] := by
  decide

/-- C12 as amended: with standard output as the list of writes, `Aggregate` on children with
values in 0..3 appends exactly one write per child, the echo
"Status: v Message: m PerfData: 'l'=..." of that child, in child order; so `Aggregate`
followed by `ExitWithStatus` (parent value in 0..3) produces one write per child and then the
rendered report line as the last write, and only with no children is the report line the
only write. -/
theorem C12_aggregate_echoes_each_child (status : NagiosStatus) (cs : List NagiosStatus)
    (out : List String) (hs : validValue status.Value) (hv : ∀ c ∈ cs, validValue c.Value) :
    (status.Aggregate cs out).stdout = out ++ cs.map aggregatePrintf ∧
    (status.Aggregate [] out).stdout = out ∧
    ∃ line, (status.Aggregate cs out).status.constructedNagiosMessage = some line ∧
      (ExitWithStatus (status.Aggregate cs out).status (status.Aggregate cs out).stdout).stdout =
        out ++ cs.map aggregatePrintf ++ [line ++ "\n"] ∧
      (ExitWithStatus (status.Aggregate cs out).status
          (status.Aggregate cs out).stdout).stdout.length = out.length + cs.length + 1 ∧
      (ExitWithStatus (status.Aggregate cs out).status (status.Aggregate cs out).stdout).outcome =
        .exited (status.Aggregate cs out).status.Value := by
  have hout := Aggregate_stdout status cs out hv
  have hval : validValue (status.Aggregate cs out).status.Value := by
    rw [(Aggregate_value status cs out hv).2]
    exact worstValue_valid cs status.Value hs hv
  have hl := valMessagesAt_eq_labelOf hval
  have hline := constructedNagiosMessage_of_valid _ hval
  have hnil : (status.Aggregate [] out).stdout = out := by
    have h := Aggregate_stdout status [] out (fun c hc => by cases hc)
    simpa using h
  refine ⟨hout, hnil, _, hline, ?_, ?_, ?_⟩
  · unfold ExitWithStatus
    rw [NagiosExit_of_label _ _ _ hl, hout]
  · unfold ExitWithStatus
    rw [NagiosExit_of_label _ _ _ hl, hout]
    simp only [List.length_append, List.length_map, List.length_singleton]
  · unfold ExitWithStatus
    rw [NagiosExit_of_label _ _ _ hl]

/-- Witness of C12 as amended: the statuses of the aggregation test. -/
theorem C12_aggregate_echoes_each_child_witness :
    (testParent.Aggregate testChildren []).stdout = [] ++ testChildren.map aggregatePrintf ∧
    (testParent.Aggregate [] []).stdout = [] :=
  ⟨(C12_aggregate_echoes_each_child testParent testChildren [] (by decide) (by decide)).1,
   (C12_aggregate_echoes_each_child testParent testChildren [] (by decide) (by decide)).2.1⟩

/-! ## The range of the severity -/

/-- C13: if the parent's value and every child's value are in 0..3, `Aggregate` returns and
the parent's value is in 0..3 afterwards; the statuses reported by `Ok`, `Warning`,
`Critical` and `Unknown` have the values 0, 1, 2 and 3, all in 0..3. -/
theorem C13_severity_stays_in_range (status : NagiosStatus) (cs : List NagiosStatus)
    (out : List String) (s : String) (e : GoError)
    (hs : validValue status.Value) (hv : ∀ c ∈ cs, validValue c.Value) :
    (status.Aggregate cs out).outcome = .returned ∧
    validValue (status.Aggregate cs out).status.Value ∧
    ((Ok s out).status.Value = 0 ∧ validValue (Ok s out).status.Value) ∧
    ((Warning s out).status.Value = 1 ∧ validValue (Warning s out).status.Value) ∧
    ((Unknown s out).status.Value = 3 ∧ validValue (Unknown s out).status.Value) ∧
    (∃ r, Critical (some e) out = some r ∧ r.status.Value = 2 ∧ validValue r.status.Value) := by
  have hok := NagiosExit_of_label
    { Message := s, Value := NAGIOS_OK, Perfdata := .zero } out "OK:" rfl
  have hwarn := NagiosExit_of_label
    { Message := s, Value := NAGIOS_WARNING, Perfdata := .zero } out "WARNING:" rfl
  have hunk := NagiosExit_of_label
    { Message := s, Value := NAGIOS_UNKNOWN, Perfdata := .zero } out "UNKNOWN:" rfl
  have hcrit := NagiosExit_of_label
    { Message := e.Error, Value := NAGIOS_CRITICAL, Perfdata := .zero } out "CRITICAL:" rfl
  refine ⟨(Aggregate_value status cs out hv).1, ?_, ?_, ?_, ?_, ?_⟩
  · rw [(Aggregate_value status cs out hv).2]
    exact worstValue_valid cs status.Value hs hv
  · unfold Ok ExitWithStatus
    rw [hok]
    exact ⟨rfl, (by decide : validValue NAGIOS_OK)⟩
  · unfold Warning ExitWithStatus
    rw [hwarn]
    exact ⟨rfl, (by decide : validValue NAGIOS_WARNING)⟩
  · unfold Unknown ExitWithStatus
    rw [hunk]
    exact ⟨rfl, (by decide : validValue NAGIOS_UNKNOWN)⟩
  · refine ⟨_, rfl, ?_, ?_⟩
    · unfold ExitWithStatus
      rw [hcrit]
      rfl
    · unfold ExitWithStatus
      rw [hcrit]
      exact (by decide : validValue NAGIOS_CRITICAL)

/-- Witness of C13: the statuses of the aggregation test. -/
theorem C13_severity_stays_in_range_witness :
    (testParent.Aggregate testChildren []).outcome = .returned ∧
    validValue (testParent.Aggregate testChildren []).status.Value :=
  ⟨(C13_severity_stays_in_range testParent testChildren [] "" { Error := "" }
      (by decide) (by decide)).1,
   (C13_severity_stays_in_range testParent testChildren [] "" { Error := "" }
      (by decide) (by decide)).2.1⟩

/-! ## The test "Aggregates the messages" -/

/-- C14 (defect in the code): on the statuses of the test "Aggregates the messages", parent
("Uh oh", CRITICAL) with the children ("ok", OK) and ("Not so bad", WARNING), the messages
joined with " - " are "Uh oh - ok - Not so bad", which is what the test asserts, but
`Aggregate` returns with the parent's message
"\nOK: ok\nWARNING: Not so bad | ''=;;;;\n''=;;;;". -/
theorem C14_messages_not_joined_with_dash :
    testParent.Message = "Uh oh" ∧
    testChildren.map (fun c => c.Message) = ["ok", "Not so bad"] ∧
    String.intercalate " - " (testParent.Message :: testChildren.map (fun c => c.Message)) =
      "Uh oh - ok - Not so bad" ∧
    (testParent.Aggregate testChildren []).outcome = .returned ∧
    (testParent.Aggregate testChildren []).status.Message ≠ "Uh oh - ok - Not so bad" ∧
    (testParent.Aggregate testChildren []).status.Message =
      "\nOK: ok\nWARNING: Not so bad | ''=;;;;" ++ "\n''=;;;;" := by
  decide

/-! ## Safety of the label lookup -/

theorem aggregateBody_invalid (fr : AggregateFrame) (s : NagiosStatus)
    (hs : ¬ validValue s.Value) : ∃ e, aggregateBody fr s = .error e := by
  unfold aggregateBody
  simp only [valMessagesAt_none hs, ite_self]
  exact ⟨_, rfl⟩

theorem aggregateBody_valid (fr : AggregateFrame) (s : NagiosStatus)
    (hs : validValue s.Value) : ∃ fr1, aggregateBody fr s = .ok fr1 := by
  by_cases hm : fr.status.Message = ""
  · exact ⟨_, aggregateBody_empty fr s hm hs⟩
  · exact ⟨_, aggregateBody_nonempty fr s hm hs⟩

theorem aggregateLoop_invalid (cs : List NagiosStatus) :
    ∀ fr : AggregateFrame, (∃ c ∈ cs, ¬ validValue c.Value) →
      ∃ e, aggregateLoop fr cs = .error e := by
  induction cs with
  | nil =>
    rintro fr ⟨c, hc, _⟩
    cases hc
  | cons s rest ih =>
    rintro fr ⟨c, hc, hbad⟩
    by_cases hs : validValue s.Value
    · obtain ⟨fr1, h1⟩ := aggregateBody_valid fr s hs
      have hrest : ∃ d ∈ rest, ¬ validValue d.Value := by
        rcases List.mem_cons.mp hc with rfl | hmem
        · exact absurd hs hbad
        · exact ⟨c, hmem, hbad⟩
      obtain ⟨e, he⟩ := ih fr1 hrest
      refine ⟨e, ?_⟩
      rw [aggregateLoop, h1]
      exact he
    · obtain ⟨e, he⟩ := aggregateBody_invalid fr s hs
      refine ⟨e, ?_⟩
      rw [aggregateLoop, he]

theorem Aggregate_invalid (status : NagiosStatus) (cs : List NagiosStatus) (out : List String)
    (hbad : ∃ c ∈ cs, ¬ validValue c.Value) :
    (status.Aggregate cs out).outcome = .panicked := by
  obtain ⟨e, he⟩ := aggregateLoop_invalid cs
    { status := status, stdout := out, perfDataStringArr := [], longMessageArr := [],
      msg := "" } hbad
  unfold NagiosStatus.Aggregate
  rw [he]

/-- C16: for any parent, whatever its value, and children whose values are all in 0..3,
`Aggregate` returns without a failed lookup in `valMessages`, and `constructedNagiosMessage`
returns a string for a status with value in 0..3; conversely a single child with a value
outside 0..3 makes `Aggregate` panic, and a status with a value outside 0..3 makes
`constructedNagiosMessage` and `NagiosExit` panic, for both kinds of status. -/
theorem C16_label_lookup_safety (status : NagiosStatus) (cs : List NagiosStatus)
    (out : List String) (hv : ∀ c ∈ cs, validValue c.Value) :
    (status.Aggregate cs out).outcome = .returned ∧
    (∀ st : NagiosStatus, validValue st.Value → (st.constructedNagiosMessage).isSome = true) ∧
    (∀ pst : NagiosStatusWithPerformanceData, validValue pst.NagiosStatus.Value →
      (pst.constructedNagiosMessage).isSome = true) ∧
    (∀ (parent : NagiosStatus) (others : List NagiosStatus) (o : List String),
      (∃ c ∈ others, ¬ validValue c.Value) → (parent.Aggregate others o).outcome = .panicked) ∧
    (∀ (st : NagiosStatus) (o : List String), ¬ validValue st.Value →
      st.constructedNagiosMessage = none ∧ (st.NagiosExit o).outcome = .panicked ∧
        (st.NagiosExit o).stdout = o) ∧
    (∀ (pst : NagiosStatusWithPerformanceData) (o : List String),
      ¬ validValue pst.NagiosStatus.Value →
        pst.constructedNagiosMessage = none ∧ (pst.NagiosExit o).outcome = .panicked ∧
          (pst.NagiosExit o).stdout = o) := by
  refine ⟨(Aggregate_value status cs out hv).1, ?_, ?_, ?_, ?_, ?_⟩
  · intro st hst
    rw [constructedNagiosMessage_of_valid st hst]
    rfl
  · intro pst hpst
    rw [perf_constructedNagiosMessage_of_valid pst hpst]
    rfl
  · intro parent others o hbad
    exact Aggregate_invalid parent others o hbad
  · intro st o hst
    have h : st.constructedNagiosMessage = none := by
      unfold NagiosStatus.constructedNagiosMessage
      rw [valMessagesAt_none hst]
    refine ⟨h, ?_, ?_⟩
    · unfold NagiosStatus.NagiosExit
      rw [h]
    · unfold NagiosStatus.NagiosExit
      rw [h]
  · intro pst o hpst
    have h : pst.constructedNagiosMessage = none := by
      unfold NagiosStatusWithPerformanceData.constructedNagiosMessage
      rw [valMessagesAt_none hpst]
    refine ⟨h, ?_, ?_⟩
    · unfold NagiosStatusWithPerformanceData.NagiosExit
      rw [h]
    · unfold NagiosStatusWithPerformanceData.NagiosExit
      rw [h]

/-- Witness of C16: the test statuses return; a child with value 4 makes the call panic. -/
theorem C16_label_lookup_safety_witness :
    (testParent.Aggregate testChildren []).outcome = .returned ∧
    (testParent.Aggregate [{ Message := "x", Value := 4, Perfdata := .zero }] []).outcome =
      .panicked :=
  ⟨(C16_label_lookup_safety testParent testChildren [] (by decide)).1,
   (C16_label_lookup_safety testParent testChildren [] (by decide)).2.2.2.1 testParent
     [{ Message := "x", Value := 4, Perfdata := .zero }] []
     ⟨{ Message := "x", Value := 4, Perfdata := .zero }, List.mem_singleton.mpr rfl,
      by decide⟩⟩

/-! ## What the message really is -/

theorem foldl_overwrite_getLast {α β : Type} (f : α → β) (cs : List α) (hne : cs ≠ []) :
    ∀ a : β, cs.foldl (fun _ c => f c) a = f (cs.getLast hne) := by
  induction cs with
  | nil => exact absurd rfl hne
  | cons c rest ih =>
    intro a
    by_cases hrest : rest = []
    · subst hrest
      rfl
    · rw [List.foldl_cons, ih hrest, List.getLast_cons hrest]

/-- C17: for a parent with the empty message and a non-empty sequence of children with
values in 0..3, `Aggregate` returns and the parent's message is exactly the rendering of the
last child, label, space, message, " | " and its performance data: every child overwrites
the one before it, and no secondary line or performance-data line is added. -/
theorem C17_empty_parent_keeps_last_child_only (status : NagiosStatus)
    (cs : List NagiosStatus) (out : List String) (hm : status.Message = "") (hne : cs ≠ [])
    (hv : ∀ c ∈ cs, validValue c.Value) :
    (status.Aggregate cs out).outcome = .returned ∧
    ∃ label, valMessagesAt (cs.getLast hne).Value = some label ∧
      (status.Aggregate cs out).status.Message =
        label ++ " " ++ (cs.getLast hne).Message ++ " | '" ++ (cs.getLast hne).Perfdata.Label ++
          "'=" ++ (cs.getLast hne).Perfdata.Value ++ (cs.getLast hne).Perfdata.Uom ++ ";" ++
          (cs.getLast hne).Perfdata.WarnThreshold ++ ";" ++
          (cs.getLast hne).Perfdata.CritThreshold ++ ";" ++
          (cs.getLast hne).Perfdata.MinValue ++ ";" ++ (cs.getLast hne).Perfdata.MaxValue := by
  refine ⟨(Aggregate_value status cs out hv).1, _,
    valMessagesAt_eq_labelOf (hv _ (List.getLast_mem hne)), ?_⟩
  rw [Aggregate_of_empty status cs out hm hv]
  simp only
  rw [foldl_overwrite_getLast
    (fun c : NagiosStatus =>
      msgFormat (labelOf c.Value) c.Message ++ " | " ++ perfFormat c.Perfdata) cs hne]
  simp only [msgFormat, perfFormat, String.append_assoc]
  rfl

/-- Witness of C17: a parent with the empty message and the two test children. -/
theorem C17_empty_parent_keeps_last_child_only_witness :
    (NagiosStatus.Aggregate { Message := "", Value := NAGIOS_OK, Perfdata := .zero }
        testChildren []).outcome = .returned ∧
    (NagiosStatus.Aggregate { Message := "", Value := NAGIOS_OK, Perfdata := .zero }
        testChildren []).status.Message = "WARNING: Not so bad | ''=;;;;" := by
  obtain ⟨h1, label, h2, h3⟩ := C17_empty_parent_keeps_last_child_only
    { Message := "", Value := NAGIOS_OK, Perfdata := .zero } testChildren [] rfl (by decide)
    (by decide)
  refine ⟨h1, ?_⟩
  have hl : label = "WARNING:" := by
    have h4 : valMessagesAt (testChildren.getLast (by decide)).Value = some "WARNING:" := by
      decide
    rw [h4] at h2
    exact (Option.some.inj h2).symm
  subst hl
  rw [h3]
  decide

theorem labelOf_eq {v : NagiosStatusVal} {label : String}
    (h : valMessagesAt v = some label) : labelOf v = label := by
  unfold labelOf
  rw [h]
  rfl

/-- C18: for a parent with a non-empty message the message after `Aggregate` does not depend
on that message. With at least one child (values in 0..3) it is a newline, the lines label,
space, message of the children joined by newlines, " | " and the children's performance data
joined by newlines; spelled out with `++` alone, for one child c it is
"\n" label(c) " " c.Message " | " perfdata(c), and for two children c, d it is
"\n" label(c) " " c.Message "\n" label(d) " " d.Message " | " perfdata(c) "\n" perfdata(d).
With no children it is the empty string, and two parents with non-empty messages and the
same children end with the same message. -/
theorem C18_nonempty_parent_message_is_ignored (status other : NagiosStatus)
    (cs : List NagiosStatus) (out : List String) (hm : status.Message ≠ "")
    (hmo : other.Message ≠ "") (hv : ∀ c ∈ cs, validValue c.Value) :
    (cs ≠ [] →
      (status.Aggregate cs out).status.Message =
        "\n" ++ String.intercalate "\n" (cs.map (fun c => labelOf c.Value ++ " " ++ c.Message)) ++
          " | " ++ String.intercalate "\n" (cs.map (fun c => perfFormat c.Perfdata))) ∧
    (∀ (c : NagiosStatus) (label : String), cs = [c] → valMessagesAt c.Value = some label →
      (status.Aggregate cs out).status.Message =
        "\n" ++ label ++ " " ++ c.Message ++ " | '" ++ c.Perfdata.Label ++ "'=" ++
          c.Perfdata.Value ++ c.Perfdata.Uom ++ ";" ++ c.Perfdata.WarnThreshold ++ ";" ++
          c.Perfdata.CritThreshold ++ ";" ++ c.Perfdata.MinValue ++ ";" ++
          c.Perfdata.MaxValue) ∧
    (∀ (c d : NagiosStatus) (lc ld : String), cs = [c, d] →
      valMessagesAt c.Value = some lc → valMessagesAt d.Value = some ld →
      (status.Aggregate cs out).status.Message =
        "\n" ++ lc ++ " " ++ c.Message ++ "\n" ++ ld ++ " " ++ d.Message ++ " | " ++
          perfFormat c.Perfdata ++ "\n" ++ perfFormat d.Perfdata) ∧
    (status.Aggregate [] out).status.Message = "" ∧
    (status.Aggregate cs out).status.Message = (other.Aggregate cs out).status.Message := by
  have hgen : cs ≠ [] →
      (status.Aggregate cs out).status.Message =
        "\n" ++ String.intercalate "\n" (cs.map (fun c => labelOf c.Value ++ " " ++ c.Message)) ++
          " | " ++ String.intercalate "\n" (cs.map (fun c => perfFormat c.Perfdata)) := by
    intro hne
    rw [Aggregate_message_of_nonempty status cs out hm hne hv]
    simp only [msgFormat, stringsJoin, String.append_assoc, String.empty_append]
  refine ⟨hgen, ?_, ?_, ?_, ?_⟩
  · intro c label hcs hl
    rw [hgen (by rw [hcs]; exact List.cons_ne_nil _ _), hcs]
    simp only [List.map_cons, List.map_nil, String.intercalate, String.intercalate.go,
      labelOf_eq hl, perfFormat, String.append_assoc]
    rfl
  · intro c d lc ld hcs hlc hld
    rw [hgen (by rw [hcs]; exact List.cons_ne_nil _ _), hcs]
    simp only [List.map_cons, List.map_nil, String.intercalate, String.intercalate.go,
      labelOf_eq hlc, labelOf_eq hld, String.append_assoc]
  · rw [Aggregate_of_nonempty status [] out hm (fun c hc => by cases hc)]
    rfl
  · rw [Aggregate_of_nonempty status cs out hm hv, Aggregate_of_nonempty other cs out hmo hv]

/-- Witness of C18: the parents "Uh oh" and "All good" with the two test children both end
with the message "\nOK: ok\nWARNING: Not so bad | ''=;;;;\n''=;;;;". -/
theorem C18_nonempty_parent_message_is_ignored_witness :
    (testParent.Aggregate testChildren []).status.Message =
      "\nOK: ok\nWARNING: Not so bad | ''=;;;;\n''=;;;;" ∧
    (NagiosStatus.Aggregate { Message := "All good", Value := NAGIOS_OK, Perfdata := .zero }
        testChildren []).status.Message =
      "\nOK: ok\nWARNING: Not so bad | ''=;;;;\n''=;;;;" ∧
    (testParent.Aggregate [] []).status.Message = "" := by
  have h := C18_nonempty_parent_message_is_ignored testParent
    { Message := "All good", Value := NAGIOS_OK, Perfdata := .zero } testChildren []
    (by decide) (by decide) (by decide)
  have h1 : (testParent.Aggregate testChildren []).status.Message =
      "\nOK: ok\nWARNING: Not so bad | ''=;;;;\n''=;;;;" :=
    (h.1 (by decide)).trans (by decide)
  exact ⟨h1, h.2.2.2.2.symm.trans h1, h.2.2.2.1⟩

/-! ## Order and grouping of the children -/

theorem worstValue_append (a : NagiosStatusVal) (xs ys : List NagiosStatus) :
    worstValue a (xs ++ ys) = worstValue (worstValue a xs) ys := by
  simp only [worstValue, List.foldl_append]

theorem worstValue_le_iff (cs : List NagiosStatus) (a u : NagiosStatusVal) :
    worstValue a cs ≤ u ↔ a ≤ u ∧ ∀ c ∈ cs, c.Value ≤ u := by
  constructor
  · intro h
    exact ⟨le_trans (worstValue_start_le cs a) h,
      fun c hc => le_trans (worstValue_mem_le cs a c hc) h⟩
  · rintro ⟨ha, hcs⟩
    rcases worstValue_attained cs a with h | ⟨c, hc, h⟩
    · rw [h]; exact ha
    · rw [h]; exact hcs c hc

theorem worstValue_append_comm (a : NagiosStatusVal) (xs ys : List NagiosStatus) :
    worstValue a (xs ++ ys) = worstValue a (ys ++ xs) := by
  apply le_antisymm
  · refine (worstValue_le_iff _ _ _).mpr ⟨worstValue_start_le _ _, fun c hc => ?_⟩
    refine worstValue_mem_le _ _ c ?_
    rcases List.mem_append.mp hc with h | h
    · exact List.mem_append.mpr (Or.inr h)
    · exact List.mem_append.mpr (Or.inl h)
  · refine (worstValue_le_iff _ _ _).mpr ⟨worstValue_start_le _ _, fun c hc => ?_⟩
    refine worstValue_mem_le _ _ c ?_
    rcases List.mem_append.mp hc with h | h
    · exact List.mem_append.mpr (Or.inr h)
    · exact List.mem_append.mpr (Or.inl h)

/-- C19: for children with values in 0..3 the value left by `Aggregate` does not depend on
the order or the grouping of the children: aggregating xs followed by ys, ys followed by xs,
or xs in one call and ys in a second call on the same parent give the same value, all calls
return, and that value is never lower than the parent's original value. -/
theorem C19_severity_independent_of_order (status : NagiosStatus) (xs ys : List NagiosStatus)
    (out : List String) (hx : ∀ c ∈ xs, validValue c.Value)
    (hy : ∀ c ∈ ys, validValue c.Value) :
    (status.Aggregate (xs ++ ys) out).outcome = .returned ∧
    (status.Aggregate (ys ++ xs) out).outcome = .returned ∧
    (status.Aggregate xs out).outcome = .returned ∧
    ((status.Aggregate xs out).status.Aggregate ys (status.Aggregate xs out).stdout).outcome =
      .returned ∧
    (status.Aggregate (xs ++ ys) out).status.Value =
      (status.Aggregate (ys ++ xs) out).status.Value ∧
    (status.Aggregate (xs ++ ys) out).status.Value =
      ((status.Aggregate xs out).status.Aggregate ys
        (status.Aggregate xs out).stdout).status.Value ∧
    status.Value ≤ (status.Aggregate (xs ++ ys) out).status.Value := by
  have hxy : ∀ c ∈ xs ++ ys, validValue c.Value := by
    intro c hc
    rcases List.mem_append.mp hc with h | h
    · exact hx c h
    · exact hy c h
  have hyx : ∀ c ∈ ys ++ xs, validValue c.Value := by
    intro c hc
    rcases List.mem_append.mp hc with h | h
    · exact hy c h
    · exact hx c h
  obtain ⟨r1, v1⟩ := Aggregate_value status (xs ++ ys) out hxy
  obtain ⟨r2, v2⟩ := Aggregate_value status (ys ++ xs) out hyx
  obtain ⟨r3, v3⟩ := Aggregate_value status xs out hx
  obtain ⟨r4, v4⟩ := Aggregate_value (status.Aggregate xs out).status ys
    (status.Aggregate xs out).stdout hy
  refine ⟨r1, r2, r3, r4, ?_, ?_, ?_⟩
  · rw [v1, v2]
    exact worstValue_append_comm status.Value xs ys
  · rw [v1, v4, v3]
    exact worstValue_append status.Value xs ys
  · rw [v1]
    exact worstValue_start_le _ _

/-- Witness of C19: the two test children taken one by one, in both orders. -/
theorem C19_severity_independent_of_order_witness :
    (testParent.Aggregate
        ([{ Message := "ok", Value := NAGIOS_OK, Perfdata := .zero }] ++
          [{ Message := "Shrug dunno", Value := NAGIOS_UNKNOWN, Perfdata := .zero }])
        []).status.Value =
      (testParent.Aggregate
        ([{ Message := "Shrug dunno", Value := NAGIOS_UNKNOWN, Perfdata := .zero }] ++
          [{ Message := "ok", Value := NAGIOS_OK, Perfdata := .zero }]) []).status.Value :=
  (C19_severity_independent_of_order testParent
    [{ Message := "ok", Value := NAGIOS_OK, Perfdata := .zero }]
    [{ Message := "Shrug dunno", Value := NAGIOS_UNKNOWN, Perfdata := .zero }] []
    (by decide) (by decide)).2.2.2.2.1

/-! ## The frame of `Aggregate`, on pointers -/

theorem frameOf_refl (p : Nat) (store : List NagiosStatus) : frameOf p store store :=
  ⟨rfl, fun _ _ => rfl, rfl⟩

theorem frameOf_trans {p : Nat} {a b c : List NagiosStatus} (hab : frameOf p a b)
    (hbc : frameOf p b c) : frameOf p a c :=
  ⟨hbc.1.trans hab.1, fun x hx => (hbc.2.1 x hx).trans (hab.2.1 x hx), hbc.2.2.trans hab.2.2⟩

theorem frameOf_set (p : Nat) (store : List NagiosStatus) (parent new : NagiosStatus)
    (hp : store[p]? = some parent) (hperf : new.Perfdata = parent.Perfdata) :
    frameOf p store (store.set p new) := by
  refine ⟨List.length_set _ _ _, fun a ha => ?_, ?_⟩
  · exact List.getElem?_set_ne (Ne.symm ha)
  · have hlt : p < store.length := by
      obtain ⟨h, _⟩ := List.getElem?_eq_some.mp hp
      exact h
    rw [List.getElem?_set_self hlt, hp]
    simp [hperf]

theorem aggregateBodyAt_frame (p : Nat) (fr : StoreFrame) (s : Nat) :
    frameOf p fr.store (endFrame (aggregateBodyAt p fr s)).store := by
  unfold aggregateBodyAt
  split
  · exact frameOf_refl _ _
  · rename_i child hchild
    simp only
    split
    · exact frameOf_refl _ _
    · rename_i parent hparent
      have hset : frameOf p fr.store
          (fr.store.set p { parent with Value := child.Value }) :=
        frameOf_set p fr.store parent _ hparent rfl
      by_cases hlt : parent.Value < child.Value
      · simp only [hlt, if_true]
        split
        · split <;> split <;> exact hset
        · exact hset
      · simp only [hlt, if_false]
        split
        · split <;> split <;> exact frameOf_refl _ _
        · exact frameOf_refl _ _

theorem aggregateLoopAt_frame (p : Nat) (cs : List Nat) :
    ∀ fr : StoreFrame, frameOf p fr.store (endFrame (aggregateLoopAt p fr cs)).store := by
  induction cs with
  | nil => intro fr; exact frameOf_refl _ _
  | cons s rest ih =>
    intro fr
    have hbody := aggregateBodyAt_frame p fr s
    rw [aggregateLoopAt]
    cases hb : aggregateBodyAt p fr s with
    | error e =>
      rw [hb] at hbody
      exact hbody
    | ok fr1 =>
      rw [hb] at hbody
      exact frameOf_trans hbody (ih fr1)

/-- The frame of `Aggregate` on pointers, whatever the store, the pointers and the way the
call ends. -/
theorem AggregateAt_frame (store : List NagiosStatus) (p : Nat) (cs : List Nat)
    (out : List String) : frameOf p store (AggregateAt store p cs out).store := by
  have hloop := aggregateLoopAt_frame p cs
    { store := store, stdout := out, perfDataStringArr := [], longMessageArr := [], msg := "" }
  unfold AggregateAt
  cases hl : aggregateLoopAt p
      { store := store, stdout := out, perfDataStringArr := [], longMessageArr := [],
        msg := "" } cs with
  | error e =>
    rw [hl] at hloop
    exact hloop
  | ok fr =>
    rw [hl] at hloop
    simp only
    split
    · exact hloop
    · rename_i parent hparent
      exact frameOf_trans hloop (frameOf_set p fr.store parent _ hparent rfl)

theorem aggregateBodyAt_inStore (store : List NagiosStatus) (p a : Nat) (fr : AggregateFrame)
    (child : NagiosStatus) (hp : p < store.length) (hne : a ≠ p)
    (hchild : store[a]? = some child) :
    aggregateBodyAt p (fr.inStore store p) a = passInStore store p (aggregateBody fr child) := by
  have hpa : p ≠ a := Ne.symm hne
  unfold aggregateBodyAt aggregateBody
  simp only [AggregateFrame.inStore, List.getElem?_set_ne hpa, hchild,
    List.getElem?_set_self hp]
  by_cases hlt : fr.status.Value < child.Value
  · simp only [hlt, if_true, List.set_set, List.getElem?_set_ne hpa, hchild,
      List.getElem?_set_self hp]
    by_cases hm : fr.status.Message = ""
    · cases hl : valMessagesAt child.Value <;> simp [hm, hl, passInStore, AggregateFrame.inStore]
    · cases hl : valMessagesAt child.Value <;> simp [hm, hl, passInStore, AggregateFrame.inStore]
  · simp only [hlt, if_false, List.getElem?_set_ne hpa, hchild, List.getElem?_set_self hp]
    by_cases hm : fr.status.Message = ""
    · cases hl : valMessagesAt child.Value <;> simp [hm, hl, passInStore, AggregateFrame.inStore]
    · cases hl : valMessagesAt child.Value <;> simp [hm, hl, passInStore, AggregateFrame.inStore]

theorem set_of_getElem_some {α : Type} (l : List α) :
    ∀ (i : Nat) (a : α), l[i]? = some a → l.set i a = l := by
  induction l with
  | nil => intro i a h; simp at h
  | cons x rest ih =>
    intro i a h
    cases i with
    | zero =>
      simp only [List.getElem?_cons_zero, Option.some.injEq] at h
      rw [List.set_cons_zero, h]
    | succ j =>
      simp only [List.getElem?_cons_succ] at h
      rw [List.set_cons_succ, ih j a h]

theorem aggregateLoopAt_inStore (store : List NagiosStatus) (p : Nat) (hp : p < store.length)
    (ptrs : List Nat) (cs : List NagiosStatus)
    (hcs : List.Forall₂ (fun a c => a ≠ p ∧ store[a]? = some c) ptrs cs) :
    ∀ fr : AggregateFrame,
      aggregateLoopAt p (fr.inStore store p) ptrs = passInStore store p (aggregateLoop fr cs) := by
  induction hcs with
  | nil => intro fr; rfl
  | cons hac _ ih =>
    intro fr
    rw [aggregateLoopAt, aggregateBodyAt_inStore store p _ fr _ hp hac.1 hac.2, aggregateLoop]
    cases aggregateBody fr _ with
    | error e => rfl
    | ok fr1 => exact ih fr1

/-- On a store in which no child pointer is the receiver, `Aggregate` on pointers does to the
receiver what the value-level `Aggregate` does, writes the same output and ends the same
way. -/
theorem AggregateAt_eq_Aggregate (store : List NagiosStatus) (p : Nat) (parent : NagiosStatus)
    (ptrs : List Nat) (cs : List NagiosStatus) (out : List String)
    (hparent : store[p]? = some parent)
    (hcs : List.Forall₂ (fun a c => a ≠ p ∧ store[a]? = some c) ptrs cs) :
    AggregateAt store p ptrs out =
      { store := store.set p (parent.Aggregate cs out).status
        stdout := (parent.Aggregate cs out).stdout
        outcome := (parent.Aggregate cs out).outcome } := by
  have hp : p < store.length := by
    obtain ⟨h, _⟩ := List.getElem?_eq_some.mp hparent
    exact h
  have hinit : (⟨store, out, [], [], ""⟩ : StoreFrame) =
      AggregateFrame.inStore store p ⟨parent, out, [], [], ""⟩ := by
    simp only [AggregateFrame.inStore, set_of_getElem_some store p parent hparent]
  unfold AggregateAt NagiosStatus.Aggregate
  rw [hinit, aggregateLoopAt_inStore store p hp ptrs cs hcs]
  cases aggregateLoop
      { status := parent, stdout := out, perfDataStringArr := [], longMessageArr := [],
        msg := "" } cs with
  | error e => rfl
  | ok fr =>
    simp only [passInStore, AggregateFrame.inStore, List.getElem?_set_self hp, List.set_set]

theorem Aggregate_perfdata (status : NagiosStatus) (cs : List NagiosStatus) (out : List String)
    (hv : ∀ c ∈ cs, validValue c.Value) :
    (status.Aggregate cs out).status.Perfdata = status.Perfdata := by
  by_cases hm : status.Message = ""
  · rw [Aggregate_of_empty status cs out hm hv]
  · rw [Aggregate_of_nonempty status cs out hm hv]

/-- C20: with the receiver and the children as pointers into a store, the children being
objects other than the receiver with values in 0..3, `Aggregate` returns, the store keeps
its size, every child and every other object that is not the receiver has all its fields as
before, and the receiver keeps its `Perfdata`, so that only the receiver's `Value` and
`Message` can differ. The frame (size, objects other than the receiver, the receiver's
`Perfdata`) holds for every store and all pointers, whatever the values and however the call
ends. -/
theorem C20_frame_of_aggregate (store : List NagiosStatus) (p : Nat) (parent : NagiosStatus)
    (ptrs : List Nat) (cs : List NagiosStatus) (out : List String)
    (hparent : store[p]? = some parent)
    (hcs : List.Forall₂ (fun a c => a ≠ p ∧ store[a]? = some c) ptrs cs)
    (hv : ∀ c ∈ cs, validValue c.Value) :
    (AggregateAt store p ptrs out).outcome = .returned ∧
    (AggregateAt store p ptrs out).store.length = store.length ∧
    List.Forall₂ (fun a c => (AggregateAt store p ptrs out).store[a]? = some c) ptrs cs ∧
    (∀ a : Nat, a ≠ p → (AggregateAt store p ptrs out).store[a]? = store[a]?) ∧
    (∃ after, (AggregateAt store p ptrs out).store[p]? = some after ∧
      after.Perfdata = parent.Perfdata ∧ after = (parent.Aggregate cs out).status) ∧
    (∀ (st : List NagiosStatus) (q : Nat) (qs : List Nat) (o : List String),
      frameOf q st (AggregateAt st q qs o).store) := by
  have hfr := AggregateAt_frame store p ptrs out
  have heq := AggregateAt_eq_Aggregate store p parent ptrs cs out hparent hcs
  have hp : p < store.length := by
    obtain ⟨h, _⟩ := List.getElem?_eq_some.mp hparent
    exact h
  refine ⟨?_, hfr.1, ?_, hfr.2.1, ?_, fun st q qs o => AggregateAt_frame st q qs o⟩
  · rw [heq]
    exact (Aggregate_value parent cs out hv).1
  · refine hcs.imp ?_
    rintro a c ⟨hne, hc⟩
    rw [hfr.2.1 a hne]
    exact hc
  · refine ⟨(parent.Aggregate cs out).status, ?_, Aggregate_perfdata parent cs out hv, rfl⟩
    rw [heq]
    exact List.getElem?_set_self hp

/-- Witness of C20: the parent of the aggregation tests at address 0, its children at 1
and 2. -/
theorem C20_frame_of_aggregate_witness :
    (AggregateAt testStore 0 [1, 2] []).outcome = .returned ∧
    (AggregateAt testStore 0 [1, 2] []).store.length = testStore.length ∧
    List.Forall₂ (fun a c => (AggregateAt testStore 0 [1, 2] []).store[a]? = some c)
      [1, 2] testChildren := by
  have h := C20_frame_of_aggregate testStore 0 testParent [1, 2] testChildren [] rfl
    (List.Forall₂.cons ⟨by decide, rfl⟩ (List.Forall₂.cons ⟨by decide, rfl⟩ List.Forall₂.nil))
    (by decide)
  exact ⟨h.1, h.2.1, h.2.2.1⟩

end Nagios
